import Mathlib

/-!
Verification development for the astrbot HTTP platform adapter
(`src/http_adapter.py`, `src/httpmessageevent.py`, `src/httpsession.py`).

The adapter correlates inbound HTTP/WebSocket requests with asynchronous
consumer responses through a pending-response table (`self.pending_responses`,
a Python dict mapping event id to a `PendingResponse` holding an
`asyncio.Future`), a session registry (`self.sessions`), and per-transport
response sinks.  This file gives a shallow embedding of that state and of the
operations the specification's claims are about, and proves the claims.

Python dicts are modelled as association lists with unique keys in the states
the program reaches; futures are single-assignment slots modelled by
`FutureState`, stored in an append-only list indexed by creation order so that
a future popped from the table can still be resolved (the waiter holds a
reference to it, exactly as in the source).
-/

namespace HttpPlatform

/-- State of an `asyncio.Future`: unresolved, resolved with a value, or
failed with an exception (represented by its message). `set_result` /
`set_exception` move `pending` to the other two states; `done()` is true in
the latter two. -/
inductive FutureState (α : Type) where
  | pending : FutureState α
  | resolved : α → FutureState α
  | failed : String → FutureState α
deriving DecidableEq, Repr

/-- `future.done()`. -/
def FutureState.done {α : Type} : FutureState α → Bool
  | FutureState.pending => false
  | FutureState.resolved _ => true
  | FutureState.failed _ => true

/-- Python `d.get(k)` / `k in d` on a dict modelled as an association list. -/
def dictLookup {β : Type} : List (String × β) → String → Option β
  | [], _ => none
  | e :: rest, k => if e.1 = k then some e.2 else dictLookup rest k

/-- Python `d.pop(k)` / `del d[k]`: the entry for `k` is removed (on unique-key
lists this removes exactly the one entry). -/
def dictErase {β : Type} : List (String × β) → String → List (String × β)
  | [], _ => []
  | e :: rest, k => if e.1 = k then dictErase rest k else e :: dictErase rest k

/-- Python `d[k] = v`: replaces the value in place when the key is present,
otherwise appends the new binding (dicts preserve insertion order). -/
def dictInsert {β : Type} : List (String × β) → String → β → List (String × β)
  | [], k, v => [(k, v)]
  | e :: rest, k, v => if e.1 = k then (k, v) :: rest else e :: dictInsert rest k v

/-- Metadata of one `PendingResponse` dataclass entry (`src/dataclasses.py`):
the future is referenced by its creation index `fid` into the adapter-wide
store of futures. -/
structure PendingEntry where
  fid : Nat
  createdAt : Nat
  timeout : Int
  sessionId : String
deriving DecidableEq, Repr

/-- Correlation state of the adapter: `futures` is the store of every
`asyncio.Future` ever created (indexed by creation order, append-only, so a
future popped from the table remains addressable by its waiter), and `table`
models the `self.pending_responses` dict. -/
structure CorrState (α : Type) where
  futures : List (FutureState α)
  table : List (String × PendingEntry)
deriving DecidableEq, Repr

/-- `StandardHTTPMessageEvent.send` (`src/http_adapter.py` lines 107-113):

    if self.event_id in self._adapter.pending_responses:
        pending = self._adapter.pending_responses.pop(self.event_id)
        if not pending.future.done():
            pending.future.set_result(response_text)

Delivery of the consumer's response for correlation id `eid`. -/
def stdEventSend (cs : CorrState String) (eid : String) (responseText : String) :
    CorrState String :=
  match dictLookup cs.table eid with
  | none => cs
  | some p =>
    let table1 := dictErase cs.table eid
    match cs.futures[p.fid]? with
    | some FutureState.pending =>
      { futures := cs.futures.set p.fid (FutureState.resolved responseText),
        table := table1 }
    | _ => { cs with table := table1 }

/-- `HTTPAdapter._handle_http_message`, timeout branch
(`src/http_adapter.py` lines 724-730):

    except asyncio.TimeoutError:
        if event_id in self.pending_responses:
            self.pending_responses.pop(event_id)
        return jsonify({"error": "请求超时", "event_id": event_id}),
               HTTP_STATUS_CODE["TIMEOUT"]

The returned pair is the new correlation state and the HTTP error response. -/
structure TimeoutHttpResponse where
  status : Nat
  errorMsg : String
  eventId : String
deriving DecidableEq, Repr

/-- `HTTP_STATUS_CODE["TIMEOUT"]` (`src/constants.py`). -/
def httpStatusGatewayTimeout : Nat := 504

/-- The `asyncio.TimeoutError` branch of `HTTPAdapter._handle_http_message`. -/
def handleWaitTimeout {α : Type} (cs : CorrState α) (eid : String) :
    CorrState α × TimeoutHttpResponse :=
  ((if (dictLookup cs.table eid).isSome then
      { cs with table := dictErase cs.table eid }
    else cs),
   { status := httpStatusGatewayTimeout, errorMsg := "请求超时", eventId := eid })

/-- Registration of a correlation entry
(`src/http_adapter.py` lines 657-664, identically `src/httpsession.py` 79-87):

    event_id = str(uuid.uuid4())
    future = asyncio.Future()
    self.pending_responses[event_id] = PendingResponse(
        future=future, session_id=session_id, timeout=data.get('timeout', 30))

A fresh future is appended to the store and the table binding for `eid` is
assigned by plain dict assignment (replacing any existing binding). -/
def registerPending {α : Type} (cs : CorrState α) (eid : String) (now : Nat)
    (timeoutVal : Int) (sid : String) : CorrState α :=
  { futures := cs.futures ++ [FutureState.pending],
    table := dictInsert cs.table eid
      { fid := cs.futures.length, createdAt := now, timeout := timeoutVal,
        sessionId := sid } }

/-- A JSON scalar as it can appear in the request body's `timeout` field. -/
inductive JsonValue where
  | jnum : Int → JsonValue
  | jstr : String → JsonValue
  | jbool : Bool → JsonValue
  | jnull : JsonValue
deriving DecidableEq, Repr

/-- `HTTPAdapter._handle_http_message` (`src/http_adapter.py` lines 706-707):

    timeout = data.get('timeout', 30)
    response = await asyncio.wait_for(future, timeout=timeout)

The value handed to the wait primitive: the caller-supplied `timeout` body
field when present, else the default `30`.  No validation occurs. -/
def waitForTimeoutArg (dataTimeout : Option JsonValue) : JsonValue :=
  dataTimeout.getD (JsonValue.jnum 30)

/-- `StandardHTTPMessageEvent.send_response` (`src/httpmessageevent.py`
lines 138-158):

    if self._cached_response is None:
        self._cached_response = []
    pending = None
    if self.event_id in self._adapter.pending_responses:
        pending = self._adapter.pending_responses.pop(self.event_id)
    if pending and not pending.future.done():
        pending.future.set_result(self._cached_response)
    else:
        logger.warning(...)

`cached` is the event's `_cached_response` buffer (a list of
`{"content": ..., "type": ...}` items, modelled as content/type string
pairs; it is initialised to `[]` in `__init__` and so never `None`). -/
def sendResponse (cached : List (String × String))
    (cs : CorrState (List (String × String))) (eid : String) :
    CorrState (List (String × String)) :=
  match dictLookup cs.table eid with
  | none => cs
  | some p =>
    let table1 := dictErase cs.table eid
    match cs.futures[p.fid]? with
    | some FutureState.pending =>
      { futures := cs.futures.set p.fid (FutureState.resolved cached),
        table := table1 }
    | _ => { cs with table := table1 }

/-- `StandardHTTPMessageEvent.__init__` sets `self._cached_response = []`. -/
def initCachedResponse : List (String × String) := []

/-- `StandardHTTPMessageEvent.send` appends the processed chain to the
`_cached_response` buffer (`src/httpmessageevent.py` lines 86-105). -/
def stdSendCache (cached : List (String × String))
    (chain : List (String × String)) : List (String × String) :=
  cached ++ chain

/-- One item put on the streaming sink's bounded `asyncio.Queue`
(`HTTP_MESSAGE_TYPE` values `message`, `error`, `end`). -/
inductive StreamChunk where
  | message : String → String → StreamChunk
  | errorChunk : String → StreamChunk
  | endChunk : StreamChunk
deriving DecidableEq, Repr

/-- State of a `StreamHTTPMessageEvent` (`src/httpmessageevent.py`): its
bounded queue (`asyncio.Queue(maxsize=100)` created by the SSE handler),
the `_is_streaming` flag and the `_finalcall` flag. -/
structure StreamState where
  queue : List StreamChunk
  queueCap : Nat
  isStreaming : Bool
  finalcall : Bool
deriving DecidableEq, Repr

/-- Default bounded wait of `_safe_put`, in seconds
(`src/httpmessageevent.py` line 300: `timeout: float = 1.0`). -/
def safePutDefaultTimeout : Nat := 1

/-- `StreamHTTPMessageEvent._safe_put` (`src/httpmessageevent.py`
lines 300-309):

    try:
        await asyncio.wait_for(self.queue.put(item), timeout=timeout)
        return True
    except asyncio.TimeoutError:
        logger.warning("队列已满，丢弃消息")
        return False

When the queue has space the item is appended and `True` returned; when the
queue stays full for the whole bounded wait the item is dropped and `False`
returned — no exception escapes. -/
def safePut (st : StreamState) (c : StreamChunk) : Bool × StreamState :=
  if st.queue.length < st.queueCap then
    (true, { st with queue := st.queue ++ [c] })
  else
    (false, st)

/-- `StreamHTTPMessageEvent.send_end_signal` (`src/httpmessageevent.py`
lines 255-275): after waiting out any in-progress streaming (which in every
exit path leaves `_is_streaming` false), it unconditionally enqueues the
terminal `end` chunk with `_safe_put`; on enqueue failure it clears
`_is_streaming`. -/
def sendEndSignal (st : StreamState) : StreamState :=
  let st1 := if st.isStreaming then { st with isStreaming := false } else st
  let r := safePut st1 StreamChunk.endChunk
  if r.1 then r.2 else { r.2 with isStreaming := false }

/-- The `_finalcall`-guarded dispatch at the end of
`StreamHTTPMessageEvent.send` / `send_streaming`
(`src/httpmessageevent.py` lines 197-199 and 245-247):

    if self._finalcall:
        await self.send_end_signal()
        self._finalcall = False
-/
def finalDispatch (st : StreamState) : StreamState :=
  if st.finalcall then { sendEndSignal st with finalcall := false } else st

/-- The inner message loop of `StreamHTTPMessageEvent.queue_put_generator`
(`src/httpmessageevent.py` lines 284-295): each content unit of one message
chain is enqueued with `_safe_put`; on failure `_is_streaming` is cleared and
the loop stops. -/
def putChain : StreamState → List (String × String) → StreamState
  | st, [] => st
  | st, m :: rest =>
    let r := safePut st (StreamChunk.message m.1 m.2)
    if r.1 then putChain r.2 rest
    else { r.2 with isStreaming := false }

/-- The outer loop of `StreamHTTPMessageEvent.queue_put_generator`
(`src/httpmessageevent.py` lines 280-295): chains are consumed from the
generator while `_is_streaming` holds. -/
def queuePutGenerator : StreamState → List (List (String × String)) → StreamState
  | st, [] => st
  | st, chain :: rest =>
    if st.isStreaming then queuePutGenerator (putChain st chain) rest else st

/-- `min(self.sessions.keys(), key=lambda k: self.sessions[k].last_active)`
(`src/http_adapter.py` line 928): the first entry attaining the minimal
`last_active`, in dict (insertion) order; `none` on an empty registry, where
Python `min` raises `ValueError`.  Registry entries are modelled as
`(session_id, last_active)` pairs. -/
def oldestSessionId : List (String × Nat) → Option (String × Nat)
  | [] => none
  | e :: rest =>
    match oldestSessionId rest with
    | none => some e
    | some b => some (if b.2 < e.2 then b else e)

/-- The admission step of `HTTPAdapter._handle_websocket_connection`
(`src/http_adapter.py` lines 926-932):

    if len(self.sessions) >= self.max_sessions:
        oldest_session_id = min(self.sessions.keys(),
                                key=lambda k: self.sessions[k].last_active)
        oldest_session = self.sessions.pop(oldest_session_id)
        await oldest_session.close("会话数量超限，关闭最旧会话")
    self.sessions[session_id] = session

Returns the new registry together with the ids whose sessions were closed
during admission, or the `ValueError` Python `min` raises on an empty
sequence. -/
def handleNewSession (sessions : List (String × Nat)) (maxSessions : Nat)
    (sid : String) (lastActive : Nat) :
    Except String (List (String × Nat) × List String) :=
  if maxSessions ≤ sessions.length then
    match oldestSessionId sessions with
    | none => Except.error "ValueError: min() arg is an empty sequence"
    | some oldest =>
      Except.ok (dictInsert (dictErase sessions oldest.1) sid lastActive,
                 [oldest.1])
  else
    Except.ok (dictInsert sessions sid lastActive, [])

/-- How the WebSocket receive loop of
`HTTPAdapter._handle_websocket_connection` ends: `ws.receive()` returned
`None`, the client disconnected (connection exception), or a handler
exception escaped. -/
inductive WsExit where
  | receivedNone : WsExit
  | disconnect : String → WsExit
  | handlerError : String → WsExit
deriving DecidableEq, Repr

/-- The `finally` block of `HTTPAdapter._handle_websocket_connection`
(`src/http_adapter.py` lines 962-965), which runs on every exit of the
receive loop:

    finally:
        if session_id in self.sessions:
            del self.sessions[session_id]
-/
def wsHandlerCleanup (sessions : List (String × Nat)) (sid : String) :
    WsExit → List (String × Nat)
  | WsExit.receivedNone =>
    if (dictLookup sessions sid).isSome then dictErase sessions sid else sessions
  | WsExit.disconnect _ =>
    if (dictLookup sessions sid).isSome then dictErase sessions sid else sessions
  | WsExit.handlerError _ =>
    if (dictLookup sessions sid).isSome then dictErase sessions sid else sessions

/-- State of the background cleanup task (`self._cleanup_task`). -/
inductive TaskState where
  | running : TaskState
  | cancelled : TaskState
deriving DecidableEq, Repr

/-- The adapter state touched by `HTTPAdapter.terminate`: correlation state,
session registry (id, last_active) and the optional sweeper task. -/
structure AdapterState (α : Type) where
  corr : CorrState α
  sessions : List (String × Nat)
  cleanupTask : Option TaskState
deriving DecidableEq, Repr

/-- Message of the `asyncio.CancelledError("适配器终止")` used by
`HTTPAdapter.terminate`. -/
def cancelMessage : String := "CancelledError: 适配器终止"

/-- One iteration of the future-cancellation loop in `HTTPAdapter.terminate`
(`src/http_adapter.py` lines 1171-1173):

    if not pending.future.done():
        pending.future.set_exception(asyncio.CancelledError("适配器终止"))
-/
def cancelPendingFuture {α : Type} (futures : List (FutureState α)) (fid : Nat) :
    List (FutureState α) :=
  match futures[fid]? with
  | some FutureState.pending => futures.set fid (FutureState.failed cancelMessage)
  | _ => futures

/-- The loop `for event_id, pending in list(self.pending_responses.items())`
of `HTTPAdapter.terminate`. -/
def cancelAllPending {α : Type} (futures : List (FutureState α)) :
    List (String × PendingEntry) → List (FutureState α)
  | [] => futures
  | e :: rest => cancelAllPending (cancelPendingFuture futures e.2.fid) rest

/-- `HTTPAdapter.terminate` (`src/http_adapter.py` lines 1149-1178): cancels
the cleanup task when one exists, closes every session (the closed ids are
returned), fails every still-pending correlation future with the cancellation
error, and clears both `self.sessions` and `self.pending_responses`. -/
def terminate {α : Type} (s : AdapterState α) : AdapterState α × List String :=
  ({ corr := { futures := cancelAllPending s.corr.futures s.corr.table,
               table := [] },
     sessions := [],
     cleanupTask := s.cleanupTask.map (fun _ => TaskState.cancelled) },
   s.sessions.map Prod.fst)

theorem dictLookup_dictErase_self {β : Type} (l : List (String × β)) (k : String) :
    dictLookup (dictErase l k) k = none := by
  induction l with
  | nil => rfl
  | cons e rest ih =>
    by_cases h : e.1 = k
    · simp [dictErase, h, ih]
    · simp [dictErase, dictLookup, h, ih]

theorem dictLookup_dictInsert_self {β : Type} (l : List (String × β)) (k : String) (v : β) :
    dictLookup (dictInsert l k v) k = some v := by
  induction l with
  | nil => simp [dictInsert, dictLookup]
  | cons e rest ih =>
    by_cases h : e.1 = k
    · simp [dictInsert, h, dictLookup]
    · simp [dictInsert, dictLookup, h, ih]

theorem stdEventSend_of_absent (cs : CorrState String) (eid v : String)
    (h : dictLookup cs.table eid = none) : stdEventSend cs eid v = cs := by
  simp [stdEventSend, h]

theorem dictLookup_stdEventSend_self (cs : CorrState String) (eid v : String) :
    dictLookup (stdEventSend cs eid v).table eid = none := by
  unfold stdEventSend
  cases h : dictLookup cs.table eid with
  | none => exact h
  | some p =>
    cases hf : cs.futures[p.fid]? with
    | none => simp [hf, dictLookup_dictErase_self]
    | some st =>
      cases st with
      | pending => simp [hf, dictLookup_dictErase_self]
      | resolved w => simp [hf, dictLookup_dictErase_self]
      | failed m => simp [hf, dictLookup_dictErase_self]

theorem sendResponse_of_absent (cached : List (String × String))
    (cs : CorrState (List (String × String))) (eid : String)
    (h : dictLookup cs.table eid = none) : sendResponse cached cs eid = cs := by
  simp [sendResponse, h]

theorem dictLookup_sendResponse_self (cached : List (String × String))
    (cs : CorrState (List (String × String))) (eid : String) :
    dictLookup (sendResponse cached cs eid).table eid = none := by
  unfold sendResponse
  cases h : dictLookup cs.table eid with
  | none => exact h
  | some p =>
    cases hf : cs.futures[p.fid]? with
    | none => simp [hf, dictLookup_dictErase_self]
    | some st =>
      cases st with
      | pending => simp [hf, dictLookup_dictErase_self]
      | resolved w => simp [hf, dictLookup_dictErase_self]
      | failed m => simp [hf, dictLookup_dictErase_self]

/-- Claim C1: For every correlation id, the pending-response future is
resolved at most once: the first delivery removes the table entry and sets
the future's result; a delivery when the entry is absent changes nothing;
a second delivery attempt after a first one changes no state; and a future
that is already done is never assigned again — never a double delivery
(`StandardHTTPMessageEvent.send`, `src/http_adapter.py` lines 107-113). -/
theorem c1_at_most_once_resolution :
    (∀ (cs : CorrState String) (eid : String) (p : PendingEntry) (v : String),
        dictLookup cs.table eid = some p →
        cs.futures[p.fid]? = some FutureState.pending →
        dictLookup (stdEventSend cs eid v).table eid = none ∧
          (stdEventSend cs eid v).futures[p.fid]? = some (FutureState.resolved v)) ∧
    (∀ (cs : CorrState String) (eid v : String),
        dictLookup cs.table eid = none → stdEventSend cs eid v = cs) ∧
    (∀ (cs : CorrState String) (eid v w : String),
        stdEventSend (stdEventSend cs eid v) eid w = stdEventSend cs eid v) ∧
    (∀ (cs : CorrState String) (eid v : String) (fid : Nat) (st : FutureState String),
        cs.futures[fid]? = some st → st ≠ FutureState.pending →
        (stdEventSend cs eid v).futures[fid]? = some st) := by
  refine ⟨?_, ?_, ?_, ?_⟩
  · intro cs eid p v h hf
    have hlt : p.fid < cs.futures.length := (List.getElem?_eq_some_iff.mp hf).1
    constructor
    · exact dictLookup_stdEventSend_self cs eid v
    · simp [stdEventSend, h, hf, List.getElem?_set_self hlt]
  · intro cs eid v h
    exact stdEventSend_of_absent cs eid v h
  · intro cs eid v w
    exact stdEventSend_of_absent _ eid w (dictLookup_stdEventSend_self cs eid v)
  · intro cs eid v fid st hst hne
    cases h : dictLookup cs.table eid with
    | none => rw [stdEventSend_of_absent cs eid v h]; exact hst
    | some p =>
      cases hf : cs.futures[p.fid]? with
      | none => simp [stdEventSend, h, hf]; exact hst
      | some fst =>
        cases fst with
        | pending =>
          have hne2 : p.fid ≠ fid := by
            intro e
            rw [e, hst] at hf
            exact hne ((Option.some.injEq _ _).mp hf)
          simp [stdEventSend, h, hf, List.getElem?_set_ne hne2]
          exact hst
        | resolved w => simp [stdEventSend, h, hf]; exact hst
        | failed m => simp [stdEventSend, h, hf]; exact hst

/-- Witness for C1 on a concrete one-entry state. -/
theorem c1_at_most_once_resolution_witness :
    dictLookup
        (stdEventSend
          { futures := [FutureState.pending],
            table := [("e1", { fid := 0, createdAt := 0, timeout := 30, sessionId := "s1" })] }
          "e1" "hello").table "e1" = none ∧
      (stdEventSend
          { futures := [FutureState.pending],
            table := [("e1", { fid := 0, createdAt := 0, timeout := 30, sessionId := "s1" })] }
          "e1" "hello").futures[(0 : Nat)]? = some (FutureState.resolved "hello") := by
  exact c1_at_most_once_resolution.1
    { futures := [FutureState.pending],
      table := [("e1", { fid := 0, createdAt := 0, timeout := 30, sessionId := "s1" })] }
    "e1" { fid := 0, createdAt := 0, timeout := 30, sessionId := "s1" } "hello"
    (by decide) (by decide)

/-- Claim C2: After the handler's wait times out, the entry is removed from
the pending-response table, the caller receives a 504 response with an error
body, and a later delivery for that id is a silent no-op
(`HTTPAdapter._handle_http_message`, `src/http_adapter.py` lines 704-730). -/
theorem c2_timeout_cleanup (cs : CorrState String) (eid v : String) :
    dictLookup (handleWaitTimeout cs eid).1.table eid = none ∧
    (handleWaitTimeout cs eid).2.status = 504 ∧
    (handleWaitTimeout cs eid).2.errorMsg = "请求超时" ∧
    stdEventSend (handleWaitTimeout cs eid).1 eid v = (handleWaitTimeout cs eid).1 := by
  have hl : dictLookup (handleWaitTimeout cs eid).1.table eid = none := by
    unfold handleWaitTimeout
    cases h : dictLookup cs.table eid with
    | none => simp [h]
    | some p => simp [h, dictLookup_dictErase_self]
  exact ⟨hl, rfl, rfl, stdEventSend_of_absent _ eid v hl⟩

/-- Claim C6: On the blocking/buffering sink, calling `send_response` twice
has the same observable effect as calling it once: the correlation future is
resolved exactly once with the accumulated chunk list (the empty aggregate
when no `send` preceded it), and the second call changes nothing
(`StandardHTTPMessageEvent.send_response`, `src/httpmessageevent.py`
lines 138-158). -/
theorem c6_blocking_finalize_idempotent :
    (∀ (cached cached2 : List (String × String))
        (cs : CorrState (List (String × String))) (eid : String),
        sendResponse cached2 (sendResponse cached cs eid) eid
          = sendResponse cached cs eid) ∧
    (∀ (cached : List (String × String)) (cs : CorrState (List (String × String)))
        (eid : String) (p : PendingEntry),
        dictLookup cs.table eid = some p →
        cs.futures[p.fid]? = some FutureState.pending →
        (sendResponse cached cs eid).futures[p.fid]?
            = some (FutureState.resolved cached) ∧
          dictLookup (sendResponse cached cs eid).table eid = none) ∧
    (∀ (cs : CorrState (List (String × String))) (eid : String) (p : PendingEntry),
        dictLookup cs.table eid = some p →
        cs.futures[p.fid]? = some FutureState.pending →
        (sendResponse initCachedResponse cs eid).futures[p.fid]?
            = some (FutureState.resolved [])) := by
  have hres : ∀ (cached : List (String × String))
      (cs : CorrState (List (String × String))) (eid : String) (p : PendingEntry),
      dictLookup cs.table eid = some p →
      cs.futures[p.fid]? = some FutureState.pending →
      (sendResponse cached cs eid).futures[p.fid]?
          = some (FutureState.resolved cached) := by
    intro cached cs eid p h hf
    have hlt : p.fid < cs.futures.length := (List.getElem?_eq_some_iff.mp hf).1
    simp [sendResponse, h, hf, List.getElem?_set_self hlt]
  refine ⟨?_, ?_, ?_⟩
  · intro cached cached2 cs eid
    exact sendResponse_of_absent cached2 _ eid
      (dictLookup_sendResponse_self cached cs eid)
  · intro cached cs eid p h hf
    exact ⟨hres cached cs eid p h hf, dictLookup_sendResponse_self cached cs eid⟩
  · intro cs eid p h hf
    exact hres initCachedResponse cs eid p h hf

/-- Witness for C6 on a concrete one-entry state. -/
theorem c6_blocking_finalize_idempotent_witness :
    (sendResponse initCachedResponse
        { futures := [FutureState.pending],
          table := [("e2", { fid := 0, createdAt := 0, timeout := 30, sessionId := "s2" })] }
        "e2").futures[(0 : Nat)]?
      = some (FutureState.resolved ([] : List (String × String))) := by
  exact c6_blocking_finalize_idempotent.2.2
    { futures := [FutureState.pending],
      table := [("e2", { fid := 0, createdAt := 0, timeout := 30, sessionId := "s2" })] }
    "e2" { fid := 0, createdAt := 0, timeout := 30, sessionId := "s2" }
    (by decide) (by decide)

/-- Counterexample to claim C5 as stated: on a fresh streaming sink with
room in the queue, calling `send_end_signal` twice enqueues two `end`
chunks — the redundant finalize call is not a no-op
(`StreamHTTPMessageEvent.send_end_signal` has no once-only guard). -/
theorem c5_end_signal_counterexample :
    (sendEndSignal (sendEndSignal
        { queue := [], queueCap := 100, isStreaming := false, finalcall := false })).queue
      = [StreamChunk.endChunk, StreamChunk.endChunk] := by decide

/-- Claim C5 (amended): `send_end_signal` enqueues an `end` chunk on every
invocation — it has no internal once-only guard — so at-most-once emission
holds only for the `_finalcall`-guarded dispatch in `send` /
`send_streaming`, which resets the flag after the first invocation and is
therefore idempotent: running the guarded dispatch twice enqueues the `end`
chunk exactly once. -/
theorem c5_end_signal_amended :
    (∀ st : StreamState, finalDispatch (finalDispatch st) = finalDispatch st) ∧
    (∀ st : StreamState, (finalDispatch st).finalcall = false) ∧
    (∀ st : StreamState, st.queue.length < st.queueCap →
        (sendEndSignal st).queue = st.queue ++ [StreamChunk.endChunk]) := by
  refine ⟨?_, ?_, ?_⟩
  · intro st
    unfold finalDispatch
    by_cases h : st.finalcall = true
    · simp [h]
    · simp [h]
  · intro st
    unfold finalDispatch
    by_cases h : st.finalcall = true
    · simp [h]
    · simp only [h, if_neg]
      simpa using h
  · intro st hroom
    unfold sendEndSignal
    by_cases h : st.isStreaming = true
    · simp [h, safePut, hroom]
    · simp [h, safePut, hroom]

/-- Witness for the amended C5 on a concrete sink with a pending
`_finalcall`. -/
theorem c5_end_signal_amended_witness :
    (sendEndSignal
        { queue := [], queueCap := 100, isStreaming := false, finalcall := true }).queue
      = [] ++ [StreamChunk.endChunk] := by
  exact c5_end_signal_amended.2.2
    { queue := [], queueCap := 100, isStreaming := false, finalcall := true }
    (by decide)

/-- Claim C7: `_safe_put` uses a bounded wait whose default is 1 second; on
timeout (the bounded queue staying full) the chunk is dropped and `False`
returned with the state otherwise unchanged, no exception propagates, and
the enqueue loop `queue_put_generator` then clears `_is_streaming` and stops
instead of blocking the producer. -/
theorem c7_safe_put_bounded :
    safePutDefaultTimeout = 1 ∧
    (∀ (st : StreamState) (c : StreamChunk),
        st.queueCap ≤ st.queue.length → safePut st c = (false, st)) ∧
    (∀ (st : StreamState) (m : String × String) (rest : List (String × String)),
        st.queueCap ≤ st.queue.length →
        putChain st (m :: rest) = { st with isStreaming := false }) ∧
    (∀ (st : StreamState) (chains : List (List (String × String))),
        st.isStreaming = false → queuePutGenerator st chains = st) := by
  have hfail : ∀ (st : StreamState) (c : StreamChunk),
      st.queueCap ≤ st.queue.length → safePut st c = (false, st) := by
    intro st c h
    simp [safePut, Nat.not_lt.mpr h]
  refine ⟨rfl, hfail, ?_, ?_⟩
  · intro st m rest h
    simp [putChain, hfail st _ h]
  · intro st chains h
    cases chains with
    | nil => rfl
    | cons c rest => simp [queuePutGenerator, h]

/-- Witness for C7 on a concrete sink whose queue is full. -/
theorem c7_safe_put_bounded_witness :
    safePut { queue := [StreamChunk.endChunk], queueCap := 1, isStreaming := true,
              finalcall := false } (StreamChunk.message "hi" "text")
      = (false, { queue := [StreamChunk.endChunk], queueCap := 1,
                  isStreaming := true, finalcall := false }) ∧
    putChain { queue := [StreamChunk.endChunk], queueCap := 1, isStreaming := true,
               finalcall := false } [("hi", "text")]
      = { queue := [StreamChunk.endChunk], queueCap := 1, isStreaming := false,
          finalcall := false } := by
  refine ⟨c7_safe_put_bounded.2.1 _ _ (by decide), ?_⟩
  exact c7_safe_put_bounded.2.2.1
    { queue := [StreamChunk.endChunk], queueCap := 1, isStreaming := true,
      finalcall := false } ("hi", "text") [] (by decide)

/-- Counterexample to claim C8 as stated: registering twice with the same id
raises no `DuplicateId` error and silently overwrites the existing table
entry — after the second registration the entry for `"e1"` points to the
second future (index 1), the first future being orphaned. -/
theorem c8_duplicate_check_counterexample :
    (registerPending
        (registerPending ({ futures := [], table := [] } : CorrState String)
          "e1" 0 30 "s") "e1" 1 30 "s").table
      = [("e1", { fid := 1, createdAt := 1, timeout := 30, sessionId := "s" })] ∧
    (registerPending
        (registerPending ({ futures := [], table := [] } : CorrState String)
          "e1" 0 30 "s") "e1" 1 30 "s").futures
      = [FutureState.pending, FutureState.pending] := by decide

/-- Claim C8 (amended): registration performs no duplicate-id check — it
always succeeds, appending a fresh pending future and assigning the table
binding for the id by plain dict assignment, which replaces any existing
binding with that id; uniqueness relies solely on the generated UUIDs. -/
theorem c8_register_overwrites (cs : CorrState String) (eid : String) (now : Nat)
    (timeoutVal : Int) (sid : String) :
    dictLookup (registerPending cs eid now timeoutVal sid).table eid
        = some { fid := cs.futures.length, createdAt := now,
                 timeout := timeoutVal, sessionId := sid } ∧
    (registerPending cs eid now timeoutVal sid).futures
        = cs.futures ++ [FutureState.pending] := by
  exact ⟨dictLookup_dictInsert_self cs.table eid _, rfl⟩

/-- Counterexample to claim C9 as stated: a non-positive caller-supplied
timeout (`-5`) and a non-numeric one (`"abc"`) are both handed to the wait
primitive exactly as supplied — nothing rejects or clamps them. -/
theorem c9_timeout_validation_counterexample :
    waitForTimeoutArg (some (JsonValue.jnum (-5))) = JsonValue.jnum (-5) ∧
    waitForTimeoutArg (some (JsonValue.jstr "abc")) = JsonValue.jstr "abc" := by
  exact ⟨rfl, rfl⟩

/-- Claim C9 (amended): the caller-supplied `timeout` body field is
propagated to the wait primitive unchanged whenever it is present — whatever
its sign or type — and only an absent field is replaced by the default 30;
no rejection, clamping or floor is applied. -/
theorem c9_timeout_propagated_as_is (v : JsonValue) :
    waitForTimeoutArg (some v) = v ∧ waitForTimeoutArg none = JsonValue.jnum 30 := by
  exact ⟨rfl, rfl⟩

/-- Claim C10: whenever the WebSocket receive loop ends — on a `None`
receive, a client disconnect, or any exception — the `finally` block removes
the session's entry from the adapter's sessions map, so the registry never
retains an entry for a connection whose handler has finished
(`HTTPAdapter._handle_websocket_connection`, `src/http_adapter.py`
lines 944-965). -/
theorem c10_ws_session_removed (sessions : List (String × Nat)) (sid : String)
    (ex : WsExit) :
    dictLookup (wsHandlerCleanup sessions sid ex) sid = none := by
  have key : ∀ s : List (String × Nat),
      dictLookup (if (dictLookup s sid).isSome then dictErase s sid else s) sid
        = none := by
    intro s
    cases h : dictLookup s sid with
    | none => simp [h]
    | some v => simp [h, dictLookup_dictErase_self]
  cases ex with
  | receivedNone => exact key sessions
  | disconnect m => exact key sessions
  | handlerError m => exact key sessions

theorem cancelPendingFuture_getElem? {α : Type} (futures : List (FutureState α))
    (fid2 fid : Nat) :
    (cancelPendingFuture futures fid2)[fid]? = futures[fid]? ∨
      (cancelPendingFuture futures fid2)[fid]?
        = some (FutureState.failed cancelMessage) := by
  unfold cancelPendingFuture
  cases hf : futures[fid2]? with
  | none => exact Or.inl rfl
  | some s =>
    cases s with
    | pending =>
      by_cases he : fid2 = fid
      · subst he
        exact Or.inr (List.getElem?_set_self (List.getElem?_eq_some_iff.mp hf).1)
      · exact Or.inl (List.getElem?_set_ne he)
    | resolved v => exact Or.inl rfl
    | failed m => exact Or.inl rfl

theorem cancelAllPending_stable {α : Type} (tbl : List (String × PendingEntry))
    (futures : List (FutureState α)) (fid : Nat)
    (hst : futures[fid]? = some (FutureState.failed cancelMessage)) :
    (cancelAllPending futures tbl)[fid]? = some (FutureState.failed cancelMessage) := by
  induction tbl generalizing futures with
  | nil => exact hst
  | cons e rest ih =>
    rcases cancelPendingFuture_getElem? futures e.2.fid fid with h | h
    · exact ih _ (h.trans hst)
    · exact ih _ h

theorem cancelAllPending_mem {α : Type} (tbl : List (String × PendingEntry))
    (futures : List (FutureState α)) (eid : String) (p : PendingEntry)
    (hmem : (eid, p) ∈ tbl) (hp : futures[p.fid]? = some FutureState.pending) :
    (cancelAllPending futures tbl)[p.fid]?
      = some (FutureState.failed cancelMessage) := by
  induction tbl generalizing futures with
  | nil => cases hmem
  | cons e rest ih =>
    rcases List.mem_cons.mp hmem with he | hrest
    · have hfe : e.2.fid = p.fid := by rw [← he]
      have h1 : cancelPendingFuture futures e.2.fid
          = futures.set p.fid (FutureState.failed cancelMessage) := by
        unfold cancelPendingFuture
        rw [hfe, hp]
      show (cancelAllPending (cancelPendingFuture futures e.2.fid) rest)[p.fid]? = _
      rw [h1]
      exact cancelAllPending_stable rest _ p.fid
        (List.getElem?_set_self (List.getElem?_eq_some_iff.mp hp).1)
    · rcases cancelPendingFuture_getElem? futures e.2.fid p.fid with h | h
      · exact ih _ hrest (h.trans hp)
      · exact cancelAllPending_stable rest _ p.fid h

/-- Claim C3: `HTTPAdapter.terminate` cancels the sweeper task when one is
present, fails every still-pending correlation future with the cancellation
error so no waiting caller hangs, invokes every open session's close routine
(the closed ids are exactly the registry's ids), and leaves both the
pending-response table and the session registry empty
(`src/http_adapter.py` lines 1149-1178). -/
theorem c3_terminate_cleanup (s : AdapterState String) :
    (∀ ts : TaskState, s.cleanupTask = some ts →
        (terminate s).1.cleanupTask = some TaskState.cancelled) ∧
    (∀ (eid : String) (p : PendingEntry), (eid, p) ∈ s.corr.table →
        s.corr.futures[p.fid]? = some FutureState.pending →
        (terminate s).1.corr.futures[p.fid]?
          = some (FutureState.failed cancelMessage)) ∧
    (terminate s).2 = s.sessions.map Prod.fst ∧
    (terminate s).1.corr.table = [] ∧
    (terminate s).1.sessions = [] := by
  refine ⟨?_, ?_, rfl, rfl, rfl⟩
  · intro ts h
    simp [terminate, h]
  · intro eid p hmem hp
    exact cancelAllPending_mem s.corr.table s.corr.futures eid p hmem hp

/-- Witness for C3 on a concrete adapter state with one pending entry, one
session and a running sweeper. -/
theorem c3_terminate_cleanup_witness :
    (terminate
        { corr := { futures := [FutureState.pending],
                    table := [("e1", { fid := 0, createdAt := 0, timeout := 30,
                                       sessionId := "s1" })] },
          sessions := [("s1", 5)],
          cleanupTask := some TaskState.running }
      : AdapterState String × List String).1.cleanupTask
        = some TaskState.cancelled ∧
    (terminate
        { corr := { futures := [FutureState.pending],
                    table := [("e1", { fid := 0, createdAt := 0, timeout := 30,
                                       sessionId := "s1" })] },
          sessions := [("s1", 5)],
          cleanupTask := some TaskState.running }
      : AdapterState String × List String).1.corr.futures[(0 : Nat)]?
        = some (FutureState.failed cancelMessage) := by
  have h := c3_terminate_cleanup
    { corr := { futures := [FutureState.pending],
                table := [("e1", { fid := 0, createdAt := 0, timeout := 30,
                                   sessionId := "s1" })] },
      sessions := [("s1", 5)],
      cleanupTask := some TaskState.running }
  exact ⟨h.1 TaskState.running rfl,
    h.2.1 "e1" { fid := 0, createdAt := 0, timeout := 30, sessionId := "s1" }
      (by decide) (by decide)⟩

theorem oldestSessionId_cons (e : String × Nat) (l : List (String × Nat)) :
    oldestSessionId (e :: l)
      = match oldestSessionId l with
        | none => some e
        | some b => some (if b.2 < e.2 then b else e) := rfl

theorem oldestSessionId_spec (e : String × Nat) (rest : List (String × Nat)) :
    ∃ b, oldestSessionId (e :: rest) = some b ∧ b ∈ e :: rest ∧
      ∀ x ∈ e :: rest, b.2 ≤ x.2 := by
  induction rest generalizing e with
  | nil =>
    refine ⟨e, rfl, List.mem_singleton.mpr rfl, ?_⟩
    intro x hx
    rw [List.mem_singleton.mp hx]
  | cons f rest ih =>
    obtain ⟨b, hb, hmem, hmin⟩ := ih f
    by_cases hlt : b.2 < e.2
    · refine ⟨b, ?_, List.mem_cons_of_mem e hmem, ?_⟩
      · rw [oldestSessionId_cons, hb]
        simp [hlt]
      · intro x hx
        rcases List.mem_cons.mp hx with hx | hx
        · rw [hx]; exact Nat.le_of_lt hlt
        · exact hmin x hx
    · refine ⟨e, ?_, List.mem_cons_self e _, ?_⟩
      · rw [oldestSessionId_cons, hb]
        simp [hlt]
      · intro x hx
        rcases List.mem_cons.mp hx with hx | hx
        · rw [hx]
        · exact Nat.le_trans (Nat.le_of_not_lt hlt) (hmin x hx)

theorem dictLookup_eq_none_of_not_mem {β : Type} (l : List (String × β)) (k : String)
    (h : k ∉ l.map Prod.fst) : dictLookup l k = none := by
  induction l with
  | nil => rfl
  | cons e rest ih =>
    have h1 : e.1 ≠ k := by
      intro he
      exact h (by simp [he])
    have h2 : k ∉ rest.map Prod.fst := by
      intro hk
      exact h (by simp [hk])
    simp [dictLookup, h1, ih h2]

theorem dictLookup_isSome_of_mem {β : Type} (l : List (String × β)) (k : String)
    (v : β) (h : (k, v) ∈ l) : (dictLookup l k).isSome := by
  induction l with
  | nil => cases h
  | cons e rest ih =>
    by_cases he : e.1 = k
    · simp [dictLookup, he]
    · rcases List.mem_cons.mp h with h1 | h1
      · exact absurd (by rw [← h1]) he
      · simp [dictLookup, he, ih h1]

theorem dictErase_eq_of_lookup_none {β : Type} (l : List (String × β)) (k : String)
    (h : dictLookup l k = none) : dictErase l k = l := by
  induction l with
  | nil => rfl
  | cons e rest ih =>
    by_cases he : e.1 = k
    · rw [dictLookup, if_pos he] at h
      cases h
    · rw [dictLookup, if_neg he] at h
      rw [dictErase, if_neg he, ih h]

theorem dictErase_length_of_nodup {β : Type} (l : List (String × β)) (k : String)
    (hnd : (l.map Prod.fst).Nodup) (hmem : (dictLookup l k).isSome) :
    (dictErase l k).length + 1 = l.length := by
  induction l with
  | nil => simp [dictLookup] at hmem
  | cons e rest ih =>
    rw [List.map_cons, List.nodup_cons] at hnd
    by_cases he : e.1 = k
    · have hrest : dictLookup rest k = none := by
        apply dictLookup_eq_none_of_not_mem
        rw [← he]
        exact hnd.1
      rw [dictErase, if_pos he, dictErase_eq_of_lookup_none rest k hrest]
      rfl
    · rw [dictLookup, if_neg he] at hmem
      rw [dictErase, if_neg he, List.length_cons, List.length_cons,
        ih hnd.2 hmem]

theorem dictLookup_dictErase_of_none {β : Type} (l : List (String × β))
    (k k2 : String) (h : dictLookup l k = none) :
    dictLookup (dictErase l k2) k = none := by
  induction l with
  | nil => rfl
  | cons e rest ih =>
    by_cases he : e.1 = k
    · rw [dictLookup, if_pos he] at h
      cases h
    · rw [dictLookup, if_neg he] at h
      by_cases he2 : e.1 = k2
      · rw [dictErase, if_pos he2]
        exact ih h
      · rw [dictErase, if_neg he2, dictLookup, if_neg he]
        exact ih h

theorem dictInsert_length_of_lookup_none {β : Type} (l : List (String × β))
    (k : String) (v : β) (h : dictLookup l k = none) :
    (dictInsert l k v).length = l.length + 1 := by
  induction l with
  | nil => rfl
  | cons e rest ih =>
    by_cases he : e.1 = k
    · rw [dictLookup, if_pos he] at h
      cases h
    · rw [dictLookup, if_neg he] at h
      rw [dictInsert, if_neg he, List.length_cons, List.length_cons, ih h]

/-- Claim C4: opening a WebSocket session while the registry already holds
`max_sessions` entries evicts exactly the session with the smallest
`last_active` — it is removed from the registry and closed — before the new
session is admitted, and the registry size stays at most `max_sessions`
(`HTTPAdapter._handle_websocket_connection`, `src/http_adapter.py`
lines 926-932). -/
theorem c4_capacity_eviction (sessions : List (String × Nat)) (maxSessions : Nat)
    (sid : String) (lastActive : Nat)
    (hfull : maxSessions ≤ sessions.length)
    (hcap : sessions.length ≤ maxSessions)
    (hnd : (sessions.map Prod.fst).Nodup)
    (hfresh : dictLookup sessions sid = none)
    (hne : sessions ≠ []) :
    (oldestSessionId sessions).isSome ∧
    ∀ oldest : String × Nat, oldestSessionId sessions = some oldest →
      oldest ∈ sessions ∧
      (∀ x ∈ sessions, oldest.2 ≤ x.2) ∧
      handleNewSession sessions maxSessions sid lastActive
        = Except.ok (dictInsert (dictErase sessions oldest.1) sid lastActive,
                     [oldest.1]) ∧
      (dictErase sessions oldest.1).length + 1 = sessions.length ∧
      (dictInsert (dictErase sessions oldest.1) sid lastActive).length
        ≤ maxSessions := by
  cases sessions with
  | nil => exact absurd rfl hne
  | cons e rest =>
    obtain ⟨b, hb, hbmem, hbmin⟩ := oldestSessionId_spec e rest
    refine ⟨by rw [hb]; rfl, ?_⟩
    intro oldest ho
    rw [hb] at ho
    cases ho
    have hlook : (dictLookup (e :: rest) b.1).isSome :=
      dictLookup_isSome_of_mem _ b.1 b.2 (by simpa using hbmem)
    have herase : (dictErase (e :: rest) b.1).length + 1 = (e :: rest).length :=
      dictErase_length_of_nodup _ b.1 hnd hlook
    have hfresh2 : dictLookup (dictErase (e :: rest) b.1) sid = none :=
      dictLookup_dictErase_of_none _ sid b.1 hfresh
    have hinslen : (dictInsert (dictErase (e :: rest) b.1) sid lastActive).length
        = (dictErase (e :: rest) b.1).length + 1 :=
      dictInsert_length_of_lookup_none _ sid lastActive hfresh2
    refine ⟨hbmem, hbmin, ?_, herase, ?_⟩
    · unfold handleNewSession
      rw [if_pos hfull, hb]
    · rw [hinslen, herase]
      exact hcap

/-- Witness for C4: a two-session registry at capacity 2 admits a third
session by evicting the least-recently-active one. -/
theorem c4_capacity_eviction_witness :
    handleNewSession [("a", 10), ("b", 3)] 2 "c" 7
        = Except.ok (dictInsert (dictErase [("a", 10), ("b", 3)] "b") "c" 7, ["b"]) ∧
    (dictInsert (dictErase [("a", 10), ("b", 3)] "b") "c" 7).length ≤ 2 := by
  have h := (c4_capacity_eviction [("a", 10), ("b", 3)] 2 "c" 7
    (by decide) (by decide) (by decide) (by decide) (by decide)).2
    ("b", 3) (by decide)
  exact ⟨h.2.2.1, h.2.2.2.2⟩

end HttpPlatform
